import Mathlib

/-!
Verification of the client-side HTTP request layer of the repository:
the cache manager (TTL response cache keyed by URL + canonicalized
parameters), the cancellation registry (per-request cancel tokens),
and the dispatcher (`HttpClient.get`/`post`/`put`/`delete` with the
authentication request interceptor and the 401 response interceptor).

The embedding is shallow: JavaScript runtime values are modelled by
`HttpBase.Value` (with JS truthiness), the `cancelTokens` map and the
cache `Map` by association lists with JS `Map.set`/`Map.delete`
semantics, `Date.now()` by an explicit `now : Nat` parameter, and the
axios transport by an `Outcome` parameter (success value or raised
error).  Callback invocations and transport calls are recorded as an
ordered event trace.
-/

namespace HttpBase

/-- A JSON-like JavaScript runtime value. -/
inductive Value where
  | vNull : Value
  | vBool (b : Bool) : Value
  | vNum (n : Int) : Value
  | vStr (s : String) : Value
  | vObj (fields : List (String × Value)) : Value

/-- JS truthiness of a value (`if (x)`): `null`, `false`, `0` and the
empty string are falsy; every object is truthy. -/
def Value.truthy : Value → Bool
  | .vNull => false
  | .vBool b => b
  | .vNum n => n != 0
  | .vStr s => s != ""
  | .vObj _ => true

/-- First-match lookup in an association list (the model of reading a
JS `Map` entry or an object property). -/
def lookupKV {β : Type} : List (String × β) → String → Option β
  | [], _ => none
  | (k', v) :: rest, k => if k' = k then some v else lookupKV rest k

/-- Remove the entry for a key (JS `Map.delete`). -/
def eraseKV {β : Type} : List (String × β) → String → List (String × β)
  | [], _ => []
  | (k', v) :: rest, k => if k' = k then eraseKV rest k else (k', v) :: eraseKV rest k

/-- JS `Map.set`: replace the entry in place when the key exists,
otherwise append it at the end. -/
def setKV {β : Type} : List (String × β) → String → β → List (String × β)
  | [], k, v => [(k, v)]
  | (k', v') :: rest, k, v =>
    if k' = k then (k, v) :: rest else (k', v') :: setKV rest k v

/-- JS property access `v.f` (undefined, i.e. `none`, on non-objects). -/
def Value.getField : Value → String → Option Value
  | .vObj fs, f => lookupKV fs f
  | _, _ => none

/-- JS string conversion as performed by a template literal. -/
def Value.display : Value → String
  | .vNull => "null"
  | .vBool true => "true"
  | .vBool false => "false"
  | .vNum n => toString n
  | .vStr s => s
  | .vObj _ => "[object Object]"

/-- Escaping of one character inside a JSON string literal. -/
def jsonEscapeChar (c : Char) : String :=
  if c = '\\' then "\\\\" else if c = '"' then "\\\"" else String.singleton c

/-- Escaping of a string for a JSON string literal. -/
def jsonEscape (s : String) : String :=
  String.join (s.toList.map jsonEscapeChar)

mutual

/-- `JSON.stringify` on the modelled values. -/
def Value.stringify : Value → String
  | .vNull => "null"
  | .vBool true => "true"
  | .vBool false => "false"
  | .vNum n => toString n
  | .vStr s => "\"" ++ jsonEscape s ++ "\""
  | .vObj fs => "\x7b" ++ stringifyFields fs ++ "\x7d"
termination_by structural v => v

/-- The comma-separated `"key":value` members of a serialized object. -/
def stringifyFields : List (String × Value) → String
  | [] => ""
  | (k, v) :: rest =>
    "\"" ++ jsonEscape k ++ "\":" ++ v.stringify ++
      (match rest with
       | [] => ""
       | _ :: _ => "," ++ stringifyFields rest)
termination_by structural l => l

end

/-- Lexicographic comparison of character sequences, the order JS
`Array.prototype.sort()` applies to string elements. -/
def charsLe : List Char → List Char → Bool
  | [], _ => true
  | _ :: _, [] => false
  | a :: as, b :: bs => if a < b then true else if b < a then false else charsLe as bs

/-- The string order used to sort parameter names. -/
def strLe (a b : String) : Bool := charsLe a.data b.data

/-- One entry of the response cache (`CacheEntry<T>` in `cacheManager.ts`):
the cached data, the storage timestamp and the absolute expiry time. -/
structure CacheEntry where
  data : Value
  timestamp : Nat
  expiresAt : Nat

/-- The cache `Map<string, CacheEntry<any>>`, modelled as an association
list with JS `Map` semantics. -/
abbrev Cache := List (String × CacheEntry)

namespace CacheManager

/-- `DEFAULT_TTL = 5 * 60 * 1000` (five minutes in milliseconds). -/
def DEFAULT_TTL : Nat := 5 * 60 * 1000

/-- `CacheManager.get`: look the key up; a missing entry yields `null`;
an entry with `expiresAt < now` is deleted and yields `null`; otherwise
the entry's data is returned.  The second component is the cache after
the lookup (the lazy-expiry deletion is its only effect). -/
def get (c : Cache) (key : String) (now : Nat) : Option Value × Cache :=
  match lookupKV c key with
  | none => (none, c)
  | some entry =>
    if entry.expiresAt < now then (none, eraseKV c key)
    else (some entry.data, c)

/-- `CacheManager.set`: store the data under the key with
`expiresAt = now + ttl`, the ttl defaulting to `DEFAULT_TTL`. -/
def set (c : Cache) (key : String) (data : Value) (ttl : Option Nat) (now : Nat) : Cache :=
  setKV c key { data := data, timestamp := now, expiresAt := now + ttl.getD DEFAULT_TTL }

/-- `CacheManager.generateKey`: absent (falsy) `params` yield the URL
alone; otherwise the parameter names are sorted, the object is rebuilt
in sorted key order and appended to the URL as `:<JSON>`. -/
def generateKey (url : String) (params : Option (List (String × Value))) : String :=
  match params with
  | none => url
  | some ps =>
    let sortedKeys := (ps.map Prod.fst).insertionSort (fun a b => strLe a b = true)
    let sortedParams := sortedKeys.map fun k => (k, (lookupKV ps k).getD Value.vNull)
    url ++ ":" ++ Value.stringify (.vObj sortedParams)

end CacheManager

/-- `CacheOptions` from `cacheManager.ts`; `key` is modelled as optional
because the dispatcher guards it with a truthiness check. -/
structure CacheOptions where
  key : Option String
  ttl : Option Nat
  bypass : Bool

/-- The request-relevant part of `RequestOptions` from `httpBase.ts`. -/
structure RequestOptions where
  cache : Option CacheOptions
  requestId : Option String
  params : Option (List (String × Value))

/-- Which of the three optional callbacks the caller supplied.  The
dispatcher guards every invocation with `if (callbacks?.onX)`. -/
structure CbFlags where
  hasSuccess : Bool
  hasError : Bool
  hasFinally : Bool

/-- The normalized `ApiError` shape.  `message` is a `Value` because the
JS `||` chain can surface a non-string `detail` field unchanged. -/
structure ApiError where
  message : Value
  status : Option Nat
  data : Option Value

/-- The response part of an axios error: HTTP status and response body. -/
structure RawResponse where
  status : Nat
  data : Value

/-- A raw error caught by the dispatcher's `catch` block: the axios
predicates `isAxiosError`/`isCancel`, the transport `message`, and the
response when one was received (the empty string models an absent
message, both being falsy). -/
structure RawError where
  isAxiosError : Bool
  isCancel : Bool
  message : String
  response : Option RawResponse

/-- How the awaited transport call settles: a response value, or a
raised error (cancellation included, distinguished by `isCancel`). -/
inductive Outcome where
  | success (v : Value) : Outcome
  | failure (e : RawError) : Outcome

/-- Observable events of one dispatcher call, in order: callback
invocations and the transport call (carrying the Authorization header
value it was issued with). -/
inductive Ev where
  | success (v : Value) : Ev
  | apiError (e : ApiError) : Ev
  | fin : Ev
  | transport (auth : Option String) : Ev

/-- How the dispatcher call itself settles for its caller: a returned
value, a rethrown raw cancellation error, or a thrown `ApiError`. -/
inductive DResult where
  | ok (v : Value) : DResult
  | cancelThrown (e : RawError) : DResult
  | errThrown (e : ApiError) : DResult

/-- The module-level mutable state of `httpBase.ts`: the `cancelTokens`
map (ids to handle serial numbers, with `next` the fresh-serial counter
and `cancelled` the set of handles whose `cancel()` ran), the response
cache, the `isRedirecting` flag, the stored `nepali_user` record, and
ghost counters for the teardown side effects (credential-record
removals, `clearActiveRequests` runs, scheduled redirects). -/
structure SysState where
  tokens : List (String × Nat)
  next : Nat
  cancelled : List Nat
  cache : Cache
  isRedirecting : Bool
  userStore : Option String
  userRemovals : Nat
  clearAlls : Nat
  redirectsScheduled : Nat

/-- `HttpClient.cancelRequest`: when an entry exists for the id, cancel
its handle and delete the entry; otherwise do nothing. -/
def cancelRequest (st : SysState) (id : String) : SysState :=
  match lookupKV st.tokens id with
  | some h => { st with cancelled := h :: st.cancelled, tokens := eraseKV st.tokens id }
  | none => st

/-- Creating a fresh cancel token source and storing it in the map
(`axios.CancelToken.source()` followed by `cancelTokens.set`). -/
def registerFresh (st : SysState) (id : String) : SysState × Nat :=
  ({ st with tokens := setKV st.tokens id st.next, next := st.next + 1 }, st.next)

/-- `cancelTokens.delete(requestId)`: drop the entry without cancelling. -/
def releaseToken (st : SysState) (id : String) : SysState :=
  { st with tokens := eraseKV st.tokens id }

/-- `HttpClient.clearActiveRequests`: cancel every registered handle and
delete every entry. -/
def clearActiveRequests (st : SysState) : SysState :=
  { st with cancelled := st.tokens.map Prod.snd ++ st.cancelled, tokens := [] }

/-- `HttpClient.resetRedirectFlag`: the external reset of
`isRedirecting` after a successful login. -/
def resetRedirectFlag (st : SysState) : SysState :=
  { st with isRedirecting := false }

/-- The 401 branch of the response interceptor: on an unauthorized
status with the flag down, set the flag, remove the stored `nepali_user`
record, cancel all pending requests and schedule the redirect; in every
other case pass the rejection through unchanged. -/
def applyResponseError (st : SysState) (status : Option Nat) : SysState :=
  if status == some 401 && !st.isRedirecting then
    { st with
      isRedirecting := true
      userStore := none
      userRemovals := st.userRemovals + 1
      cancelled := st.tokens.map Prod.snd ++ st.cancelled
      tokens := []
      clearAlls := st.clearAlls + 1
      redirectsScheduled := st.redirectsScheduled + 1 }
  else st

/-- The request interceptor's Authorization computation: read the stored
`nepali_user` string, `JSON.parse` it (the parser is an external
collaborator, passed as a function), and when both `token` and
`tokenType` are truthy produce `` `${tokenType} ${token}` ``; on an
absent record, a parse failure, or falsy fields, no header is set. -/
def authHeaderOf (parse : String → Option Value) (stored : Option String) : Option String :=
  match stored with
  | none => none
  | some raw =>
    match parse raw with
    | none => none
    | some user =>
      match user.getField "token", user.getField "tokenType" with
      | some tk, some tt =>
        if tk.truthy && tt.truthy then some (tt.display ++ " " ++ tk.display) else none
      | _, _ => none

/-- `HttpClient.handleError`: normalize a caught non-cancellation error
to the `ApiError` shape via the JS truthiness chains
`responseData?.detail || error.message || 'An error occurred'` (axios
errors) and `error.message || 'An unknown error occurred'` (others). -/
def handleError (e : RawError) : ApiError :=
  if e.isAxiosError then
    let responseData := e.response.map RawResponse.data
    { message :=
        match responseData.bind (fun d => d.getField "detail") with
        | some d =>
          if d.truthy then d
          else if e.message != "" then .vStr e.message else .vStr "An error occurred"
        | none =>
          if e.message != "" then .vStr e.message else .vStr "An error occurred"
      status := e.response.map RawResponse.status
      data := responseData }
  else
    { message := if e.message != "" then .vStr e.message else .vStr "An unknown error occurred"
      status := none
      data := none }

/-- How one dispatcher call settles: a cache hit (truthy cached value),
a transport success, a cancellation rethrow, or a normalized error. -/
inductive Settled where
  | hit (v : Value) : Settled
  | succ (v : Value) : Settled
  | cancel (e : RawError) : Settled
  | err (e : RawError) : Settled

/-- Classify the transport outcome as the `try`/`catch` of the
dispatcher does (`axios.isCancel` guarding the rethrow). -/
def settleOutcome : Outcome → Settled
  | .success v => .succ v
  | .failure e => if e.isCancel then .cancel e else .err e

/-- The settlement of a call given the cache-probe result (`if
(cachedData)` — a falsy cached value falls through to the transport)
and the transport outcome. -/
def getSettled (hitVal : Option Value) (outcome : Outcome) : Settled :=
  match hitVal with
  | some v => if v.truthy then .hit v else settleOutcome outcome
  | none => settleOutcome outcome

/-- The ordered event trace of one call: the cache-hit shortcut invokes
`onSuccess` then `onFinally` with no transport call; the other paths
issue the transport call and the `catch`/`finally` blocks fire the
guarded callbacks — `finally` also on the cancellation rethrow. -/
def traceOf (cb : CbFlags) (s : Settled) (auth : Option String) : List Ev :=
  let finEvs := if cb.hasFinally then [Ev.fin] else []
  match s with
  | .hit v => (if cb.hasSuccess then [Ev.success v] else []) ++ finEvs
  | .succ v => Ev.transport auth :: ((if cb.hasSuccess then [Ev.success v] else []) ++ finEvs)
  | .cancel _ => Ev.transport auth :: finEvs
  | .err e => Ev.transport auth :: ((if cb.hasError then [Ev.apiError (handleError e)] else []) ++ finEvs)

/-- What the caller's promise observes for each settlement. -/
def resultOf : Settled → DResult
  | .hit v => .ok v
  | .succ v => .ok v
  | .cancel e => .cancelThrown e
  | .err e => .errThrown (handleError e)

/-- `config?.requestId || `verb:url:timestamp``. -/
def requestIdOf (verb url : String) (config : Option RequestOptions) (now : Nat) : String :=
  (config.bind RequestOptions.requestId).getD (verb ++ ":" ++ url ++ ":" ++ toString now)

/-- The cache directives that are actually in force for a read:
`config?.cache && !config.cache.bypass`, paired with `config.params`. -/
def cachePlanOf (config : Option RequestOptions) :
    Option (CacheOptions × Option (List (String × Value))) :=
  match config with
  | some cfg =>
    match cfg.cache with
    | some co => if co.bypass then none else some (co, cfg.params)
    | none => none
  | none => none

/-- `config.cache.key || cacheManager.generateKey(url, config.params)`. -/
def resolveCacheKey (url : String) (params : Option (List (String × Value)))
    (co : CacheOptions) : String :=
  match co.key with
  | some k => if k != "" then k else CacheManager.generateKey url params
  | none => CacheManager.generateKey url params

/-- The resolved cache key of a read call (meaningful when
`cachePlanOf config` is set). -/
def resolvedKeyOf (url : String) (config : Option RequestOptions) : String :=
  match cachePlanOf config with
  | some (co, ps) => resolveCacheKey url ps co
  | none => url

/-- Whether the call is cacheable: caching requested and not bypassed. -/
def cacheableOf (config : Option RequestOptions) : Bool :=
  (cachePlanOf config).isSome

/-- The cache-probe step of a read: when cache directives are in force,
run `cacheManager.get` on the resolved key (the lazy-expiry deletion is
kept in the state); otherwise no probe happens. -/
def probeCache (plan : Option (CacheOptions × Option (List (String × Value))))
    (url : String) (now : Nat) (st2 : SysState) : Option Value × SysState :=
  match plan with
  | some (co, ps) =>
    let p := CacheManager.get st2.cache (resolveCacheKey url ps co) now
    (p.1, { st2 with cache := p.2 })
  | none => (none, st2)

/-- The state left by a read call's settlement: a cache hit deletes the
token; a transport success stores the cacheable response and deletes
the token; a raised error (cancellation included) runs the 401 response
interceptor and leaves the token registered (the `catch` path never
deletes it). -/
def finalGetState (plan : Option (CacheOptions × Option (List (String × Value))))
    (url : String) (now : Nat) (requestId : String) (st3 : SysState) : Settled → SysState
  | .hit _ => releaseToken st3 requestId
  | .succ v =>
    let stB :=
      match plan with
      | some (co, ps) =>
        { st3 with cache := CacheManager.set st3.cache (resolveCacheKey url ps co) v co.ttl now }
      | none => st3
    releaseToken stB requestId
  | .cancel e => applyResponseError st3 (e.response.map RawResponse.status)
  | .err e => applyResponseError st3 (e.response.map RawResponse.status)

/-- The state left by a write call's settlement (no cache handling). -/
def finalWriteState (requestId : String) (st2 : SysState) : Settled → SysState
  | .hit _ => st2
  | .succ _ => releaseToken st2 requestId
  | .cancel e => applyResponseError st2 (e.response.map RawResponse.status)
  | .err e => applyResponseError st2 (e.response.map RawResponse.status)

/-- `HttpClient.get`: resolve the request id, cancel any previous call
under it, register a fresh cancel token, probe the cache when the call
is cacheable (deleting a just-expired entry), and settle: a truthy
cache hit releases the token and short-circuits; otherwise the
transport call is issued with the interceptor-derived Authorization
header, a success stores the cacheable response and releases the token,
and a raised error first passes through the 401 response interceptor
and is then either rethrown raw (cancellation) or normalized. -/
def runGet (parse : String → Option Value) (url : String) (config : Option RequestOptions)
    (cb : CbFlags) (now : Nat) (outcome : Outcome) (st0 : SysState) :
    DResult × SysState × List Ev :=
  let requestId := requestIdOf "get" url config now
  let st2 := (registerFresh (cancelRequest st0 requestId) requestId).1
  let plan := cachePlanOf config
  let probed := probeCache plan url now st2
  let s := getSettled probed.1 outcome
  let auth := authHeaderOf parse probed.2.userStore
  (resultOf s, finalGetState plan url now requestId probed.2 s, traceOf cb s auth)

/-- `HttpClient.post`/`put`/`delete` (they differ only in the verb):
the same pipeline as `runGet` without the cache steps. -/
def runWrite (parse : String → Option Value) (verb url : String)
    (config : Option RequestOptions) (cb : CbFlags) (now : Nat) (outcome : Outcome)
    (st0 : SysState) : DResult × SysState × List Ev :=
  let requestId := requestIdOf verb url config now
  let st2 := (registerFresh (cancelRequest st0 requestId) requestId).1
  let s := settleOutcome outcome
  let auth := authHeaderOf parse st2.userStore
  (resultOf s, finalWriteState requestId st2 s, traceOf cb s auth)

/-- Event classifiers and extractors over a call trace. -/
def isFin : Ev → Bool
  | .fin => true
  | _ => false

def isTransportEv : Ev → Bool
  | .transport _ => true
  | _ => false

def finCount (l : List Ev) : Nat := l.countP isFin

def succEvents (l : List Ev) : List Value :=
  l.filterMap fun e => match e with | .success v => some v | _ => none

def errEvents (l : List Ev) : List ApiError :=
  l.filterMap fun e => match e with | .apiError a => some a | _ => none

def transportEvents (l : List Ev) : List (Option String) :=
  l.filterMap fun e => match e with | .transport a => some a | _ => none

/-! ### Association-list lemmas -/

theorem lookupKV_setKV_self {β : Type} (l : List (String × β)) (k : String) (v : β) :
    lookupKV (setKV l k v) k = some v := by
  induction l with
  | nil => simp [setKV, lookupKV]
  | cons p rest ih =>
    obtain ⟨k', v'⟩ := p
    by_cases h : k' = k <;> simp [setKV, lookupKV, h, ih]

theorem lookupKV_setKV_ne {β : Type} (l : List (String × β)) (k k' : String) (v : β)
    (h : k' ≠ k) : lookupKV (setKV l k v) k' = lookupKV l k' := by
  have hk : k ≠ k' := fun hh => h hh.symm
  induction l with
  | nil => simp [setKV, lookupKV, hk]
  | cons p rest ih =>
    obtain ⟨k0, v0⟩ := p
    by_cases h0 : k0 = k
    · subst h0
      simp [setKV, lookupKV, hk]
    · by_cases h1 : k0 = k' <;> simp [setKV, lookupKV, h, h0, h1, ih]

theorem lookupKV_eraseKV_self {β : Type} (l : List (String × β)) (k : String) :
    lookupKV (eraseKV l k) k = none := by
  induction l with
  | nil => simp [eraseKV, lookupKV]
  | cons p rest ih =>
    obtain ⟨k', v'⟩ := p
    by_cases h : k' = k <;> simp [eraseKV, lookupKV, h, ih]

theorem lookupKV_eraseKV_ne {β : Type} (l : List (String × β)) (k k' : String)
    (h : k' ≠ k) : lookupKV (eraseKV l k) k' = lookupKV l k' := by
  have hk : k ≠ k' := fun hh => h hh.symm
  induction l with
  | nil => simp [eraseKV]
  | cons p rest ih =>
    obtain ⟨k0, v0⟩ := p
    by_cases h0 : k0 = k
    · subst h0
      simp [eraseKV, lookupKV, hk, ih]
    · by_cases h1 : k0 = k' <;> simp [eraseKV, lookupKV, h, h0, h1, ih]

/-! ### C3: cache TTL semantics of `CacheManager.get`/`set` -/

/-- C3 (counterexample): the claim says an entry set at time `s` with
TTL `t` is treated as absent by `get` at any time `>= s + t`; but the
expiry check is the strict `entry.expiresAt < now`, so at `now = s + t`
exactly (here `s = 0`, `t = 5`, `now = 5 >= 0 + 5`) the entry is still
returned. -/
theorem c3_cache_ttl_counterexample :
    (5 : Nat) ≥ 0 + 5 ∧
    (CacheManager.get (CacheManager.set [] "k" (.vNum 7) (some 5) 0) "k" 5).1 =
      some (.vNum 7) := by
  constructor
  · decide
  · rfl

/-- C3 (amended): after `set(key, value, t)` at time `s`, `get(key)`
returns the value at any time `<= s + t`, and at any time `> s + t`
treats the entry as absent and deletes it from the cache as a side
effect of the lookup. -/
theorem c3_cache_ttl (c : Cache) (k : String) (v : Value) (t s now : Nat) :
    (now ≤ s + t →
      (CacheManager.get (CacheManager.set c k v (some t) s) k now).1 = some v) ∧
    (s + t < now →
      (CacheManager.get (CacheManager.set c k v (some t) s) k now).1 = none ∧
      lookupKV (CacheManager.get (CacheManager.set c k v (some t) s) k now).2 k = none) := by
  constructor
  · intro h
    simp [CacheManager.get, CacheManager.set, lookupKV_setKV_self, Nat.not_lt.mpr h]
  · intro h
    simp [CacheManager.get, CacheManager.set, lookupKV_setKV_self, h, lookupKV_eraseKV_self]

/-- C3 witness: the amended theorem applied at `s = 0`, `t = 5`, with a
live read at `now = 3` and an expired read at `now = 9`. -/
theorem c3_cache_ttl_witness :
    ((3 : Nat) ≤ 0 + 5 ∧
      (CacheManager.get (CacheManager.set [] "k" (.vNum 7) (some 5) 0) "k" 3).1 =
        some (.vNum 7)) ∧
    (0 + 5 < 9 ∧
      ((CacheManager.get (CacheManager.set [] "k" (.vNum 7) (some 5) 0) "k" 9).1 = none ∧
        lookupKV (CacheManager.get (CacheManager.set [] "k" (.vNum 7) (some 5) 0) "k" 9).2 "k" =
          none)) :=
  ⟨⟨by decide, (c3_cache_ttl [] "k" (.vNum 7) 5 0 3).1 (by decide)⟩,
   ⟨by decide, (c3_cache_ttl [] "k" (.vNum 7) 5 0 9).2 (by decide)⟩⟩

/-! ### C10: the empty parameters object vs absent parameters -/

/-- C10: `generateKey` with an empty parameters object appends `:{}` to
the URL, while absent params yield the URL alone, so the two never share
a cache slot. -/
theorem c10_empty_params_distinct_key (url : String) :
    CacheManager.generateKey url (some []) = url ++ ":" ++ "\x7b\x7d" ∧
    CacheManager.generateKey url none = url ∧
    CacheManager.generateKey url (some []) ≠ CacheManager.generateKey url none := by
  refine ⟨rfl, rfl, fun h => ?_⟩
  have h' : url ++ ":" ++ "\x7b\x7d" = url := h
  have hlen := congrArg String.length h'
  rw [String.length_append, String.length_append] at hlen
  have h1 : (":" : String).length = 1 := rfl
  have h2 : ("\x7b\x7d" : String).length = 2 := rfl
  omega

/-! ### C6: `generateKey` is insensitive to parameter insertion order -/

theorem charsLe_cons_iff (a b : Char) (as bs : List Char) :
    charsLe (a :: as) (b :: bs) = true ↔ a < b ∨ (a = b ∧ charsLe as bs = true) := by
  rcases lt_trichotomy a b with h | h | h
  · simp [charsLe, h]
  · simp [charsLe, h, lt_irrefl]
  · have hab : ¬a < b := not_lt.mpr h.le
    simp [charsLe, hab, h, ne_of_gt h]

theorem charsLe_total (as bs : List Char) : charsLe as bs = true ∨ charsLe bs as = true := by
  induction as generalizing bs with
  | nil => left; simp [charsLe]
  | cons a as ih =>
    cases bs with
    | nil => right; simp [charsLe]
    | cons b bs =>
      rcases lt_trichotomy a b with h | h | h
      · left; simp [charsLe_cons_iff, h]
      · subst h
        rcases ih bs with h' | h'
        · left; simp [charsLe_cons_iff, h']
        · right; simp [charsLe_cons_iff, h']
      · right; simp [charsLe_cons_iff, h]

theorem charsLe_trans (as bs cs : List Char) (h1 : charsLe as bs = true)
    (h2 : charsLe bs cs = true) : charsLe as cs = true := by
  induction as generalizing bs cs with
  | nil => simp [charsLe]
  | cons a as ih =>
    cases bs with
    | nil => simp [charsLe] at h1
    | cons b bs =>
      cases cs with
      | nil => simp [charsLe] at h2
      | cons c cs =>
        rw [charsLe_cons_iff] at h1 h2 ⊢
        rcases h1 with h1 | ⟨h1e, h1r⟩
        · rcases h2 with h2 | ⟨h2e, h2r⟩
          · exact Or.inl (h1.trans h2)
          · exact Or.inl (h2e ▸ h1)
        · rcases h2 with h2 | ⟨h2e, h2r⟩
          · exact Or.inl (h1e ▸ h2)
          · exact Or.inr ⟨h1e.trans h2e, ih bs cs h1r h2r⟩

theorem charsLe_antisymm (as bs : List Char) (h1 : charsLe as bs = true)
    (h2 : charsLe bs as = true) : as = bs := by
  induction as generalizing bs with
  | nil =>
    cases bs with
    | nil => rfl
    | cons b bs => simp [charsLe] at h2
  | cons a as ih =>
    cases bs with
    | nil => simp [charsLe] at h1
    | cons b bs =>
      rw [charsLe_cons_iff] at h1 h2
      rcases h1 with h1 | ⟨h1e, h1r⟩
      · rcases h2 with h2 | ⟨h2e, h2r⟩
        · exact absurd h2 (not_lt.mpr h1.le)
        · exact absurd h1 (h2e ▸ lt_irrefl b)
      · rcases h2 with h2 | ⟨h2e, h2r⟩
        · exact absurd h2 (h1e ▸ lt_irrefl a)
        · rw [h1e, ih bs h1r h2r]

instance : IsTotal String (fun a b => strLe a b = true) :=
  ⟨fun a b => charsLe_total a.data b.data⟩

instance : IsTrans String (fun a b => strLe a b = true) :=
  ⟨fun a b c h1 h2 => charsLe_trans a.data b.data c.data h1 h2⟩

instance : IsAntisymm String (fun a b => strLe a b = true) :=
  ⟨fun a b h1 h2 => by
    cases a with
    | mk da =>
      cases b with
      | mk db => exact congrArg String.mk (charsLe_antisymm da db h1 h2)⟩

theorem lookupKV_eq_none_iff {β : Type} (l : List (String × β)) (k : String) :
    lookupKV l k = none ↔ k ∉ l.map Prod.fst := by
  induction l with
  | nil => simp [lookupKV]
  | cons p rest ih =>
    obtain ⟨k0, v0⟩ := p
    by_cases h : k0 = k
    · subst h; simp [lookupKV]
    · simp only [lookupKV, if_neg h, ih, List.map_cons]
      constructor
      · intro hk hc
        rcases List.mem_cons.mp hc with hc | hc
        · exact h hc.symm
        · exact hk hc
      · exact fun hk hc => hk (List.mem_cons_of_mem _ hc)

theorem mem_of_lookupKV_eq_some {β : Type} (l : List (String × β)) (k : String) (v : β)
    (h : lookupKV l k = some v) : (k, v) ∈ l := by
  induction l with
  | nil => simp [lookupKV] at h
  | cons p rest ih =>
    obtain ⟨k0, v0⟩ := p
    by_cases h0 : k0 = k
    · subst h0
      simp [lookupKV] at h
      simp [h]
    · simp [lookupKV, h0] at h
      exact List.mem_cons_of_mem _ (ih h)

theorem lookupKV_eq_some_of_mem {β : Type} (l : List (String × β)) (k : String) (v : β)
    (hm : (k, v) ∈ l) (hn : (l.map Prod.fst).Nodup) : lookupKV l k = some v := by
  induction l with
  | nil => simp at hm
  | cons p rest ih =>
    obtain ⟨k0, v0⟩ := p
    rcases List.mem_cons.mp hm with he | ht
    · rw [Prod.mk.injEq] at he
      obtain ⟨hk, hv⟩ := he
      subst hk; subst hv
      simp [lookupKV]
    · have hk0 : k0 ≠ k := by
        intro he0
        subst he0
        have : k0 ∈ rest.map Prod.fst := List.mem_map.mpr ⟨(k0, v), ht, rfl⟩
        exact (List.nodup_cons.mp hn).1 this
      simp [lookupKV, hk0]
      exact ih ht (List.nodup_cons.mp hn).2

theorem lookupKV_eq_of_perm {β : Type} (l1 l2 : List (String × β)) (hp : l1.Perm l2)
    (hn : (l1.map Prod.fst).Nodup) (k : String) : lookupKV l1 k = lookupKV l2 k := by
  have hn2 : (l2.map Prod.fst).Nodup := ((hp.map Prod.fst).nodup_iff).mp hn
  cases hc : lookupKV l1 k with
  | none =>
    have h1 := (lookupKV_eq_none_iff l1 k).mp hc
    have h2 : k ∉ l2.map Prod.fst := fun hm =>
      h1 (((hp.map Prod.fst).mem_iff).mpr hm)
    exact ((lookupKV_eq_none_iff l2 k).mpr h2).symm
  | some v =>
    have h1 := mem_of_lookupKV_eq_some l1 k v hc
    exact (lookupKV_eq_some_of_mem l2 k v (hp.mem_iff.mp h1) hn2).symm

/-- C6: `generateKey` sorts parameter names before serialization, so two
parameter objects holding the same key-value pairs in different
insertion orders produce the identical key string; absent params yield
the URL alone. -/
theorem c6_generateKey_order_insensitive (url : String) (p1 p2 : List (String × Value))
    (hn : (p1.map Prod.fst).Nodup) (hp : p1.Perm p2) :
    CacheManager.generateKey url (some p1) = CacheManager.generateKey url (some p2) ∧
    CacheManager.generateKey url none = url := by
  refine ⟨?_, rfl⟩
  have hkp : (p1.map Prod.fst).Perm (p2.map Prod.fst) := hp.map Prod.fst
  have hs : (p1.map Prod.fst).insertionSort (fun a b => strLe a b = true) =
      (p2.map Prod.fst).insertionSort (fun a b => strLe a b = true) :=
    List.eq_of_perm_of_sorted
      ((List.perm_insertionSort _ _).trans
        (hkp.trans (List.perm_insertionSort _ _).symm))
      (List.sorted_insertionSort _ _) (List.sorted_insertionSort _ _)
  have hlk : ∀ k, lookupKV p1 k = lookupKV p2 k := lookupKV_eq_of_perm p1 p2 hp hn
  simp only [CacheManager.generateKey, hs]
  have hmap :
      (((p2.map Prod.fst).insertionSort (fun a b => strLe a b = true)).map
        fun k => (k, (lookupKV p1 k).getD Value.vNull)) =
      (((p2.map Prod.fst).insertionSort (fun a b => strLe a b = true)).map
        fun k => (k, (lookupKV p2 k).getD Value.vNull)) :=
    List.map_congr_left fun k _ => by rw [hlk k]
  rw [hmap]

/-- C6 witness: two concrete two-entry parameter objects that differ
only in insertion order yield the same cache key. -/
theorem c6_generateKey_order_insensitive_witness :
    (([("b", Value.vStr "1"), ("a", Value.vStr "2")].map Prod.fst).Nodup) ∧
    ([("b", Value.vStr "1"), ("a", Value.vStr "2")].Perm
      [("a", Value.vStr "2"), ("b", Value.vStr "1")]) ∧
    CacheManager.generateKey "u" (some [("b", Value.vStr "1"), ("a", Value.vStr "2")]) =
      CacheManager.generateKey "u" (some [("a", Value.vStr "2"), ("b", Value.vStr "1")]) :=
  ⟨by decide, List.Perm.swap _ _ _,
    (c6_generateKey_order_insensitive "u" _ _ (by decide) (List.Perm.swap _ _ _)).1⟩

/-! ### State plumbing lemmas -/

@[simp] theorem cancelRequest_cache (st : SysState) (id : String) :
    (cancelRequest st id).cache = st.cache := by
  unfold cancelRequest
  cases lookupKV st.tokens id <;> rfl

@[simp] theorem cancelRequest_isRedirecting (st : SysState) (id : String) :
    (cancelRequest st id).isRedirecting = st.isRedirecting := by
  unfold cancelRequest
  cases lookupKV st.tokens id <;> rfl

@[simp] theorem cancelRequest_userStore (st : SysState) (id : String) :
    (cancelRequest st id).userStore = st.userStore := by
  unfold cancelRequest
  cases lookupKV st.tokens id <;> rfl

@[simp] theorem cancelRequest_next (st : SysState) (id : String) :
    (cancelRequest st id).next = st.next := by
  unfold cancelRequest
  cases lookupKV st.tokens id <;> rfl

@[simp] theorem registerFresh_cache (st : SysState) (id : String) :
    ((registerFresh st id).1).cache = st.cache := rfl

@[simp] theorem registerFresh_isRedirecting (st : SysState) (id : String) :
    ((registerFresh st id).1).isRedirecting = st.isRedirecting := rfl

@[simp] theorem registerFresh_userStore (st : SysState) (id : String) :
    ((registerFresh st id).1).userStore = st.userStore := rfl

@[simp] theorem registerFresh_tokens (st : SysState) (id : String) :
    ((registerFresh st id).1).tokens = setKV st.tokens id st.next := rfl

@[simp] theorem releaseToken_cache (st : SysState) (id : String) :
    (releaseToken st id).cache = st.cache := rfl

@[simp] theorem releaseToken_isRedirecting (st : SysState) (id : String) :
    (releaseToken st id).isRedirecting = st.isRedirecting := rfl

@[simp] theorem releaseToken_userStore (st : SysState) (id : String) :
    (releaseToken st id).userStore = st.userStore := rfl

@[simp] theorem releaseToken_cancelled (st : SysState) (id : String) :
    (releaseToken st id).cancelled = st.cancelled := rfl

@[simp] theorem releaseToken_tokens (st : SysState) (id : String) :
    (releaseToken st id).tokens = eraseKV st.tokens id := rfl

@[simp] theorem applyResponseError_cache (st : SysState) (x : Option Nat) :
    (applyResponseError st x).cache = st.cache := by
  unfold applyResponseError
  split <;> rfl

@[simp] theorem probeCache_isRedirecting (plan : Option (CacheOptions × Option (List (String × Value))))
    (url : String) (now : Nat) (st : SysState) :
    ((probeCache plan url now st).2).isRedirecting = st.isRedirecting := by
  unfold probeCache
  rcases plan with _ | ⟨co, ps⟩ <;> rfl

@[simp] theorem probeCache_userStore (plan : Option (CacheOptions × Option (List (String × Value))))
    (url : String) (now : Nat) (st : SysState) :
    ((probeCache plan url now st).2).userStore = st.userStore := by
  unfold probeCache
  rcases plan with _ | ⟨co, ps⟩ <;> rfl

@[simp] theorem probeCache_tokens (plan : Option (CacheOptions × Option (List (String × Value))))
    (url : String) (now : Nat) (st : SysState) :
    ((probeCache plan url now st).2).tokens = st.tokens := by
  unfold probeCache
  rcases plan with _ | ⟨co, ps⟩ <;> rfl

@[simp] theorem probeCache_next (plan : Option (CacheOptions × Option (List (String × Value))))
    (url : String) (now : Nat) (st : SysState) :
    ((probeCache plan url now st).2).next = st.next := by
  unfold probeCache
  rcases plan with _ | ⟨co, ps⟩ <;> rfl

@[simp] theorem probeCache_cancelled (plan : Option (CacheOptions × Option (List (String × Value))))
    (url : String) (now : Nat) (st : SysState) :
    ((probeCache plan url now st).2).cancelled = st.cancelled := by
  unfold probeCache
  rcases plan with _ | ⟨co, ps⟩ <;> rfl

/-- With the redirect flag already up, the 401 branch of the response
interceptor is skipped entirely. -/
theorem applyResponseError_of_flag (st : SysState) (x : Option Nat)
    (h : st.isRedirecting = true) : applyResponseError st x = st := by
  simp [applyResponseError, h]

/-- The response interceptor never lowers the redirect flag. -/
theorem applyResponseError_flag_mono (st : SysState) (x : Option Nat)
    (h : st.isRedirecting = true) : (applyResponseError st x).isRedirecting = true := by
  rw [applyResponseError_of_flag st x h]
  exact h

/-- The full teardown performed by the first unauthorized response
observed with the flag down. -/
theorem applyResponseError_teardown (st : SysState) (h : st.isRedirecting = false) :
    applyResponseError st (some 401) =
      { st with
        isRedirecting := true
        userStore := none
        userRemovals := st.userRemovals + 1
        cancelled := st.tokens.map Prod.snd ++ st.cancelled
        tokens := []
        clearAlls := st.clearAlls + 1
        redirectsScheduled := st.redirectsScheduled + 1 } := by
  simp [applyResponseError, h]

/-- The response interceptor applied to a whole sequence of settling
responses.  JS interceptor callbacks run one at a time on the event
loop, so N concurrently failing calls are observed as some sequence. -/
def applyStatuses (st : SysState) (l : List (Option Nat)) : SysState :=
  l.foldl applyResponseError st

theorem applyStatuses_of_flag (st : SysState) (l : List (Option Nat))
    (h : st.isRedirecting = true) : applyStatuses st l = st := by
  induction l with
  | nil => rfl
  | cons x xs ih =>
    show applyStatuses (applyResponseError st x) xs = st
    rw [applyResponseError_of_flag st x h, ih]

theorem finalGetState_flag_mono (plan : Option (CacheOptions × Option (List (String × Value))))
    (url : String) (now : Nat) (requestId : String) (st3 : SysState) (s : Settled)
    (h : st3.isRedirecting = true) :
    (finalGetState plan url now requestId st3 s).isRedirecting = true := by
  cases s with
  | hit v => simpa [finalGetState]
  | succ v =>
    rcases plan with _ | ⟨co, ps⟩ <;> simpa [finalGetState]
  | cancel e => simpa [finalGetState] using applyResponseError_flag_mono st3 _ h
  | err e => simpa [finalGetState] using applyResponseError_flag_mono st3 _ h

theorem finalWriteState_flag_mono (requestId : String) (st2 : SysState) (s : Settled)
    (h : st2.isRedirecting = true) :
    (finalWriteState requestId st2 s).isRedirecting = true := by
  cases s with
  | hit v => simpa [finalWriteState]
  | succ v => simpa [finalWriteState]
  | cancel e => simpa [finalWriteState] using applyResponseError_flag_mono st2 _ h
  | err e => simpa [finalWriteState] using applyResponseError_flag_mono st2 _ h

theorem runGet_flag_mono (parse : String → Option Value) (url : String)
    (config : Option RequestOptions) (cb : CbFlags) (now : Nat) (outcome : Outcome)
    (st : SysState) (h : st.isRedirecting = true) :
    ((runGet parse url config cb now outcome st).2.1).isRedirecting = true := by
  unfold runGet
  apply finalGetState_flag_mono
  simp [h]

theorem runWrite_flag_mono (parse : String → Option Value) (verb url : String)
    (config : Option RequestOptions) (cb : CbFlags) (now : Nat) (outcome : Outcome)
    (st : SysState) (h : st.isRedirecting = true) :
    ((runWrite parse verb url config cb now outcome st).2.1).isRedirecting = true := by
  unfold runWrite
  apply finalWriteState_flag_mono
  simp [h]

/-! ### C1: session-expiry teardown runs exactly once -/

/-- C1: for any non-empty sequence of dispatcher calls all failing with
status 401 observed with the redirect flag down, exactly one teardown
runs (one credential-record removal, one `clearActiveRequests` run
emptying the token map, one scheduled redirect) and the flag ends up;
any 401 observed with the flag up performs no further teardown; the
dispatcher never lowers the flag — only `resetRedirectFlag` does. -/
theorem c1_session_teardown_once :
    (∀ (st : SysState) (l : List (Option Nat)),
      st.isRedirecting = false → l ≠ [] → (∀ x ∈ l, x = some 401) →
        (applyStatuses st l).userRemovals = st.userRemovals + 1 ∧
        (applyStatuses st l).clearAlls = st.clearAlls + 1 ∧
        (applyStatuses st l).redirectsScheduled = st.redirectsScheduled + 1 ∧
        (applyStatuses st l).tokens = [] ∧
        (applyStatuses st l).isRedirecting = true) ∧
    (∀ (st : SysState) (x : Option Nat), st.isRedirecting = true →
        applyResponseError st x = st) ∧
    (∀ st : SysState, (resetRedirectFlag st).isRedirecting = false) ∧
    (∀ parse url config cb now outcome st, st.isRedirecting = true →
        ((runGet parse url config cb now outcome st).2.1).isRedirecting = true) ∧
    (∀ parse verb url config cb now outcome st, st.isRedirecting = true →
        ((runWrite parse verb url config cb now outcome st).2.1).isRedirecting = true) := by
  refine ⟨?_, applyResponseError_of_flag, fun _ => rfl, runGet_flag_mono, runWrite_flag_mono⟩
  intro st l hflag hne hall
  cases l with
  | nil => exact absurd rfl hne
  | cons x xs =>
    have hx : x = some 401 := hall x (List.mem_cons_self x xs)
    subst hx
    have h1 := applyResponseError_teardown st hflag
    show
      (applyStatuses (applyResponseError st (some 401)) xs).userRemovals = st.userRemovals + 1 ∧
      (applyStatuses (applyResponseError st (some 401)) xs).clearAlls = st.clearAlls + 1 ∧
      (applyStatuses (applyResponseError st (some 401)) xs).redirectsScheduled =
        st.redirectsScheduled + 1 ∧
      (applyStatuses (applyResponseError st (some 401)) xs).tokens = [] ∧
      (applyStatuses (applyResponseError st (some 401)) xs).isRedirecting = true
    rw [h1, applyStatuses_of_flag _ xs rfl]
    exact ⟨rfl, rfl, rfl, rfl, rfl⟩

/-- C1 witness: three concurrent 401 failures starting from a fresh
state perform exactly one teardown. -/
theorem c1_session_teardown_once_witness :
    (let st : SysState :=
      { tokens := [("a", 0), ("b", 1)], next := 2, cancelled := [], cache := [],
        isRedirecting := false, userStore := some "creds", userRemovals := 0,
        clearAlls := 0, redirectsScheduled := 0 }
     (applyStatuses st [some 401, some 401, some 401]).userRemovals = st.userRemovals + 1 ∧
     (applyStatuses st [some 401, some 401, some 401]).clearAlls = st.clearAlls + 1 ∧
     (applyStatuses st [some 401, some 401, some 401]).redirectsScheduled =
       st.redirectsScheduled + 1 ∧
     (applyStatuses st [some 401, some 401, some 401]).tokens = [] ∧
     (applyStatuses st [some 401, some 401, some 401]).isRedirecting = true) :=
  c1_session_teardown_once.1 _ [some 401, some 401, some 401] rfl (by simp) (by decide)

/-! ### C4: at most one live cancellation handle per request identifier -/

@[simp] theorem registerFresh_cancelled (st : SysState) (id : String) :
    ((registerFresh st id).1).cancelled = st.cancelled := rfl

@[simp] theorem registerFresh_next (st : SysState) (id : String) :
    ((registerFresh st id).1).next = st.next + 1 := rfl

theorem eraseKV_sublist {β : Type} (l : List (String × β)) (k : String) :
    List.Sublist (eraseKV l k) l := by
  induction l with
  | nil => simp [eraseKV]
  | cons p rest ih =>
    obtain ⟨k0, v0⟩ := p
    by_cases h : k0 = k
    · simp only [eraseKV, if_pos h]
      exact ih.cons _
    · simp only [eraseKV, if_neg h]
      exact ih.cons₂ _

theorem nodupKeys_eraseKV {β : Type} (l : List (String × β)) (k : String)
    (h : (l.map Prod.fst).Nodup) : ((eraseKV l k).map Prod.fst).Nodup :=
  List.Nodup.sublist ((eraseKV_sublist l k).map Prod.fst) h

theorem mem_keys_setKV {β : Type} (l : List (String × β)) (k a : String) (v : β)
    (h : a ∈ (setKV l k v).map Prod.fst) : a = k ∨ a ∈ l.map Prod.fst := by
  induction l with
  | nil =>
    simp only [setKV, List.map_cons, List.map_nil, List.mem_cons, List.not_mem_nil,
      or_false] at h
    exact Or.inl h
  | cons p rest ih =>
    obtain ⟨k0, v0⟩ := p
    by_cases h0 : k0 = k
    · simp only [setKV, if_pos h0, List.map_cons, List.mem_cons] at h
      rcases h with h | h
      · exact Or.inl h
      · exact Or.inr (List.mem_cons_of_mem _ h)
    · simp only [setKV, if_neg h0, List.map_cons, List.mem_cons] at h
      rcases h with h | h
      · exact Or.inr (h ▸ List.mem_cons_self _ _)
      · rcases ih h with h | h
        · exact Or.inl h
        · exact Or.inr (List.mem_cons_of_mem _ h)

theorem nodupKeys_setKV {β : Type} (l : List (String × β)) (k : String) (v : β)
    (h : (l.map Prod.fst).Nodup) : ((setKV l k v).map Prod.fst).Nodup := by
  induction l with
  | nil => simp [setKV]
  | cons p rest ih =>
    obtain ⟨k0, v0⟩ := p
    rw [List.map_cons] at h
    obtain ⟨hnotin, hrest⟩ := List.nodup_cons.mp h
    by_cases h0 : k0 = k
    · simp only [setKV, if_pos h0, List.map_cons]
      subst h0
      exact List.nodup_cons.mpr ⟨hnotin, hrest⟩
    · simp only [setKV, if_neg h0, List.map_cons]
      refine List.nodup_cons.mpr ⟨?_, ih hrest⟩
      intro hmem
      rcases mem_keys_setKV rest k k0 v hmem with hh | hh
      · exact h0 hh
      · exact hnotin hh

theorem mem_setKV {β : Type} (l : List (String × β)) (k : String) (v : β)
    (p : String × β) (h : p ∈ setKV l k v) : p = (k, v) ∨ p ∈ l := by
  induction l with
  | nil =>
    simp only [setKV, List.mem_cons, List.not_mem_nil, or_false] at h
    exact Or.inl h
  | cons q rest ih =>
    obtain ⟨k0, v0⟩ := q
    by_cases h0 : k0 = k
    · simp only [setKV, if_pos h0, List.mem_cons] at h
      rcases h with h | h
      · exact Or.inl h
      · exact Or.inr (List.mem_cons_of_mem _ h)
    · simp only [setKV, if_neg h0, List.mem_cons] at h
      rcases h with h | h
      · exact Or.inr (h ▸ List.mem_cons_self _ _)
      · rcases ih h with h | h
        · exact Or.inl h
        · exact Or.inr (List.mem_cons_of_mem _ h)

theorem nodupKeys_cancelRequest (st : SysState) (id : String)
    (h : (st.tokens.map Prod.fst).Nodup) :
    ((cancelRequest st id).tokens.map Prod.fst).Nodup := by
  unfold cancelRequest
  cases lookupKV st.tokens id with
  | none => exact h
  | some hh => exact nodupKeys_eraseKV st.tokens id h

theorem nodupKeys_applyResponseError (st : SysState) (x : Option Nat)
    (h : (st.tokens.map Prod.fst).Nodup) :
    ((applyResponseError st x).tokens.map Prod.fst).Nodup := by
  unfold applyResponseError
  split
  · simp
  · exact h

theorem nodupKeys_registerPipeline (st : SysState) (id : String)
    (h : (st.tokens.map Prod.fst).Nodup) :
    (((registerFresh (cancelRequest st id) id).1).tokens.map Prod.fst).Nodup := by
  rw [registerFresh_tokens]
  exact nodupKeys_setKV _ id _ (nodupKeys_cancelRequest st id h)

theorem nodupKeys_finalGetState (plan : Option (CacheOptions × Option (List (String × Value))))
    (url : String) (now : Nat) (requestId : String) (st3 : SysState) (s : Settled)
    (h : (st3.tokens.map Prod.fst).Nodup) :
    ((finalGetState plan url now requestId st3 s).tokens.map Prod.fst).Nodup := by
  cases s with
  | hit v => simpa [finalGetState] using nodupKeys_eraseKV st3.tokens requestId h
  | succ v =>
    rcases plan with _ | ⟨co, ps⟩ <;>
      simpa [finalGetState] using nodupKeys_eraseKV st3.tokens requestId h
  | cancel e => exact nodupKeys_applyResponseError st3 _ h
  | err e => exact nodupKeys_applyResponseError st3 _ h

theorem nodupKeys_finalWriteState (requestId : String) (st2 : SysState) (s : Settled)
    (h : (st2.tokens.map Prod.fst).Nodup) :
    ((finalWriteState requestId st2 s).tokens.map Prod.fst).Nodup := by
  cases s with
  | hit v => exact h
  | succ v => simpa [finalWriteState] using nodupKeys_eraseKV st2.tokens requestId h
  | cancel e => exact nodupKeys_applyResponseError st2 _ h
  | err e => exact nodupKeys_applyResponseError st2 _ h

/-- C4: every dispatcher call first cancels and removes any handle
registered under its resolved id (the old handle lands in the cancelled
set and its entry is gone before the fresh one is stored), then stores
a fresh handle distinct from the old one; the registry's key set stays
duplicate-free through the begin step and through whole `get`/write
calls, so each identifier maps to at most one live handle. -/
theorem c4_registry_unique_handle :
    (∀ (st : SysState) (id : String) (hOld : Nat),
      (st.tokens.map Prod.fst).Nodup →
      lookupKV st.tokens id = some hOld →
      (∀ p ∈ st.tokens, p.2 < st.next) →
        hOld ∈ (cancelRequest st id).cancelled ∧
        lookupKV (cancelRequest st id).tokens id = none ∧
        (registerFresh (cancelRequest st id) id).2 = st.next ∧
        lookupKV ((registerFresh (cancelRequest st id) id).1).tokens id = some st.next ∧
        hOld ≠ st.next ∧
        hOld ∈ ((registerFresh (cancelRequest st id) id).1).cancelled ∧
        (((registerFresh (cancelRequest st id) id).1).tokens.map Prod.fst).Nodup ∧
        (∀ p ∈ ((registerFresh (cancelRequest st id) id).1).tokens,
          p.2 < ((registerFresh (cancelRequest st id) id).1).next)) ∧
    (∀ parse url config cb now outcome st,
      (st.tokens.map Prod.fst).Nodup →
      (((runGet parse url config cb now outcome st).2.1).tokens.map Prod.fst).Nodup) ∧
    (∀ parse verb url config cb now outcome st,
      (st.tokens.map Prod.fst).Nodup →
      (((runWrite parse verb url config cb now outcome st).2.1).tokens.map Prod.fst).Nodup) := by
  refine ⟨?_, ?_, ?_⟩
  · intro st id hOld hnodup hlook hbound
    have hOldmem : (id, hOld) ∈ st.tokens := mem_of_lookupKV_eq_some st.tokens id hOld hlook
    have hOldlt : hOld < st.next := hbound (id, hOld) hOldmem
    refine ⟨?_, ?_, ?_, ?_, ?_, ?_, ?_, ?_⟩
    · simp [cancelRequest, hlook]
    · simp [cancelRequest, hlook, lookupKV_eraseKV_self]
    · simp [cancelRequest, hlook, registerFresh]
    · rw [registerFresh_tokens, lookupKV_setKV_self, cancelRequest_next]
    · exact Nat.ne_of_lt hOldlt
    · rw [registerFresh_cancelled]
      simp [cancelRequest, hlook]
    · exact nodupKeys_registerPipeline st id hnodup
    · rw [registerFresh_tokens, registerFresh_next, cancelRequest_next]
      intro p hp
      rcases mem_setKV _ id _ p hp with hh | hh
      · rw [hh]
        exact Nat.lt_succ_self st.next
      · have hp' : p ∈ st.tokens := by
          revert hh
          unfold cancelRequest
          cases lookupKV st.tokens id with
          | none => exact fun hh => hh
          | some h0 => exact fun hh => (eraseKV_sublist st.tokens id).subset hh
        exact Nat.lt_succ_of_lt (hbound p hp')
  · intro parse url config cb now outcome st h
    unfold runGet
    apply nodupKeys_finalGetState
    rw [probeCache_tokens, registerFresh_tokens]
    exact nodupKeys_setKV _ _ _ (nodupKeys_cancelRequest st _ h)
  · intro parse verb url config cb now outcome st h
    unfold runWrite
    apply nodupKeys_finalWriteState
    rw [registerFresh_tokens]
    exact nodupKeys_setKV _ _ _ (nodupKeys_cancelRequest st _ h)

/-- C4 witness: re-issuing under the already-registered id `"r"` (old
handle `0`) cancels the old handle, removes the entry, and stores the
fresh distinct handle `1`. -/
theorem c4_registry_unique_handle_witness :
    (let st : SysState :=
      { tokens := [("r", 0)], next := 1, cancelled := [], cache := [],
        isRedirecting := false, userStore := none, userRemovals := 0,
        clearAlls := 0, redirectsScheduled := 0 }
     0 ∈ (cancelRequest st "r").cancelled ∧
     lookupKV (cancelRequest st "r").tokens "r" = none ∧
     (registerFresh (cancelRequest st "r") "r").2 = st.next ∧
     lookupKV ((registerFresh (cancelRequest st "r") "r").1).tokens "r" = some st.next ∧
     0 ≠ st.next ∧
     0 ∈ ((registerFresh (cancelRequest st "r") "r").1).cancelled ∧
     (((registerFresh (cancelRequest st "r") "r").1).tokens.map Prod.fst).Nodup ∧
     (∀ p ∈ ((registerFresh (cancelRequest st "r") "r").1).tokens,
        p.2 < ((registerFresh (cancelRequest st "r") "r").1).next)) :=
  c4_registry_unique_handle.1 _ "r" 0 (by decide) (by decide) (by decide)

/-! ### Unfolding lemmas for the dispatcher pipeline -/

/-- The cache-probe value a read call observes (after begin-of-call
registry work, which leaves the cache untouched). -/
def cacheProbeOf (url : String) (config : Option RequestOptions) (now : Nat)
    (st : SysState) : Option Value :=
  (probeCache (cachePlanOf config) url now
    ((registerFresh (cancelRequest st (requestIdOf "get" url config now))
      (requestIdOf "get" url config now)).1)).1

/-- The state right after the begin-of-call registry work and the cache
probe of a read call. -/
def probeStateOf (url : String) (config : Option RequestOptions) (now : Nat)
    (st : SysState) : SysState :=
  (probeCache (cachePlanOf config) url now
    ((registerFresh (cancelRequest st (requestIdOf "get" url config now))
      (requestIdOf "get" url config now)).1)).2

theorem runGet_components (parse : String → Option Value) (url : String)
    (config : Option RequestOptions) (cb : CbFlags) (now : Nat) (outcome : Outcome)
    (st : SysState) :
    runGet parse url config cb now outcome st =
      (resultOf (getSettled (cacheProbeOf url config now st) outcome),
       finalGetState (cachePlanOf config) url now (requestIdOf "get" url config now)
         (probeStateOf url config now st)
         (getSettled (cacheProbeOf url config now st) outcome),
       traceOf cb (getSettled (cacheProbeOf url config now st) outcome)
         (authHeaderOf parse st.userStore)) := by
  simp only [runGet, cacheProbeOf, probeStateOf, probeCache_userStore,
    registerFresh_userStore, cancelRequest_userStore]

theorem runWrite_components (parse : String → Option Value) (verb url : String)
    (config : Option RequestOptions) (cb : CbFlags) (now : Nat) (outcome : Outcome)
    (st : SysState) :
    runWrite parse verb url config cb now outcome st =
      (resultOf (settleOutcome outcome),
       finalWriteState (requestIdOf verb url config now)
         ((registerFresh (cancelRequest st (requestIdOf verb url config now))
           (requestIdOf verb url config now)).1) (settleOutcome outcome),
       traceOf cb (settleOutcome outcome) (authHeaderOf parse st.userStore)) := by
  simp only [runWrite, registerFresh_userStore, cancelRequest_userStore]

/-! ### Trace lemmas -/

theorem finCount_traceOf (cb : CbFlags) (s : Settled) (auth : Option String)
    (h : cb.hasFinally = true) : finCount (traceOf cb s auth) = 1 := by
  cases s <;> cases hs : cb.hasSuccess <;> cases he : cb.hasError <;>
    simp [traceOf, finCount, h, hs, he, isFin, List.countP_append, List.countP_cons]

theorem succEvents_traceOf_cancel (cb : CbFlags) (e : RawError) (auth : Option String) :
    succEvents (traceOf cb (.cancel e) auth) = [] := by
  cases hf : cb.hasFinally <;> simp [traceOf, succEvents, hf]

theorem errEvents_traceOf_cancel (cb : CbFlags) (e : RawError) (auth : Option String) :
    errEvents (traceOf cb (.cancel e) auth) = [] := by
  cases hf : cb.hasFinally <;> simp [traceOf, errEvents, hf]

theorem errEvents_traceOf_err (cb : CbFlags) (e : RawError) (auth : Option String)
    (h : cb.hasError = true) :
    errEvents (traceOf cb (.err e) auth) = [handleError e] := by
  cases hs : cb.hasSuccess <;> cases hf : cb.hasFinally <;>
    simp [traceOf, errEvents, h, hs, hf]

theorem transport_mem_traceOf (cb : CbFlags) (s : Settled) (auth : Option String)
    (a : Option String) (h : Ev.transport a ∈ traceOf cb s auth) : a = auth := by
  cases s <;> cases hs : cb.hasSuccess <;> cases he : cb.hasError <;>
    cases hf : cb.hasFinally <;> simp_all [traceOf]

theorem resultOf_eq_cancelThrown (s : Settled) (e : RawError)
    (h : resultOf s = .cancelThrown e) : s = .cancel e := by
  cases s <;> simp [resultOf] at h ⊢
  exact h

/-! ### C2: `onFinally` invocation discipline -/

/-- C2 (counterexample): a call whose transport settles as a
cancellation (its cancel token was consumed) rethrows the raw cancel
error, yet the `finally` block still runs, so `onFinally` fires once —
not the zero times the claim states. -/
theorem c2_onFinally_counterexample :
    (runGet (fun _ => none) "u" none ⟨true, true, true⟩ 0
      (.failure ⟨false, true, "cancelled", none⟩)
      { tokens := [], next := 0, cancelled := [], cache := [], isRedirecting := false,
        userStore := none, userRemovals := 0, clearAlls := 0,
        redirectsScheduled := 0 }).1 =
      .cancelThrown ⟨false, true, "cancelled", none⟩ ∧
    finCount ((runGet (fun _ => none) "u" none ⟨true, true, true⟩ 0
      (.failure ⟨false, true, "cancelled", none⟩)
      { tokens := [], next := 0, cancelled := [], cache := [], isRedirecting := false,
        userStore := none, userRemovals := 0, clearAlls := 0,
        redirectsScheduled := 0 }).2.2) = 1 :=
  ⟨rfl, rfl⟩

/-- C2 (amended): with `onFinally` supplied it is invoked exactly once
for every settled outcome — success, cache hit, normalized error, and
also cancellation (the `finally` block runs on the rethrow); on a
cancelled settlement neither `onSuccess` nor `onError` is invoked. -/
theorem c2_onFinally_exactly_once :
    (∀ parse url config cb now outcome st, cb.hasFinally = true →
      finCount ((runGet parse url config cb now outcome st).2.2) = 1 ∧
      (∀ e, (runGet parse url config cb now outcome st).1 = .cancelThrown e →
        succEvents ((runGet parse url config cb now outcome st).2.2) = [] ∧
        errEvents ((runGet parse url config cb now outcome st).2.2) = [])) ∧
    (∀ parse verb url config cb now outcome st, cb.hasFinally = true →
      finCount ((runWrite parse verb url config cb now outcome st).2.2) = 1 ∧
      (∀ e, (runWrite parse verb url config cb now outcome st).1 = .cancelThrown e →
        succEvents ((runWrite parse verb url config cb now outcome st).2.2) = [] ∧
        errEvents ((runWrite parse verb url config cb now outcome st).2.2) = [])) := by
  constructor
  · intro parse url config cb now outcome st h
    simp only [runGet_components]
    refine ⟨finCount_traceOf cb _ _ h, ?_⟩
    intro e he
    rw [resultOf_eq_cancelThrown _ e he]
    exact ⟨succEvents_traceOf_cancel cb e _, errEvents_traceOf_cancel cb e _⟩
  · intro parse verb url config cb now outcome st h
    simp only [runWrite_components]
    refine ⟨finCount_traceOf cb _ _ h, ?_⟩
    intro e he
    rw [resultOf_eq_cancelThrown _ e he]
    exact ⟨succEvents_traceOf_cancel cb e _, errEvents_traceOf_cancel cb e _⟩

/-- C2 witness: the amended theorem applied to a concrete successful
read and a concrete cancelled write. -/
theorem c2_onFinally_exactly_once_witness :
    (true = true ∧
      finCount ((runGet (fun _ => none) "u" none ⟨true, true, true⟩ 0
        (.success (.vNum 1))
        { tokens := [], next := 0, cancelled := [], cache := [], isRedirecting := false,
          userStore := none, userRemovals := 0, clearAlls := 0,
          redirectsScheduled := 0 }).2.2) = 1) ∧
    (true = true ∧
      finCount ((runWrite (fun _ => none) "post" "u" none ⟨true, true, true⟩ 0
        (.failure ⟨false, true, "cancelled", none⟩)
        { tokens := [], next := 0, cancelled := [], cache := [], isRedirecting := false,
          userStore := none, userRemovals := 0, clearAlls := 0,
          redirectsScheduled := 0 }).2.2) = 1 ∧
      succEvents ((runWrite (fun _ => none) "post" "u" none ⟨true, true, true⟩ 0
        (.failure ⟨false, true, "cancelled", none⟩)
        { tokens := [], next := 0, cancelled := [], cache := [], isRedirecting := false,
          userStore := none, userRemovals := 0, clearAlls := 0,
          redirectsScheduled := 0 }).2.2) = [] ∧
      errEvents ((runWrite (fun _ => none) "post" "u" none ⟨true, true, true⟩ 0
        (.failure ⟨false, true, "cancelled", none⟩)
        { tokens := [], next := 0, cancelled := [], cache := [], isRedirecting := false,
          userStore := none, userRemovals := 0, clearAlls := 0,
          redirectsScheduled := 0 }).2.2) = []) := by
  constructor
  · exact ⟨rfl, (c2_onFinally_exactly_once.1 (fun _ => none) "u" none ⟨true, true, true⟩ 0
      (.success (.vNum 1)) _ rfl).1⟩
  · refine ⟨rfl, (c2_onFinally_exactly_once.2 (fun _ => none) "post" "u" none
      ⟨true, true, true⟩ 0 (.failure ⟨false, true, "cancelled", none⟩) _ rfl).1, ?_, ?_⟩
    · exact ((c2_onFinally_exactly_once.2 (fun _ => none) "post" "u" none
        ⟨true, true, true⟩ 0 (.failure ⟨false, true, "cancelled", none⟩) _ rfl).2
        ⟨false, true, "cancelled", none⟩ rfl).1
    · exact ((c2_onFinally_exactly_once.2 (fun _ => none) "post" "u" none
        ⟨true, true, true⟩ 0 (.failure ⟨false, true, "cancelled", none⟩) _ rfl).2
        ⟨false, true, "cancelled", none⟩ rfl).2

/-! ### C5: the cache-hit shortcut of a read call -/

theorem next_notin_cancelRequest (st : SysState) (id : String)
    (hbound : ∀ p ∈ st.tokens, p.2 < st.next) (hnc : st.next ∉ st.cancelled) :
    st.next ∉ (cancelRequest st id).cancelled := by
  unfold cancelRequest
  cases hl : lookupKV st.tokens id with
  | none => exact hnc
  | some h0 =>
    intro hmem
    rcases List.mem_cons.mp hmem with he | hm
    · have hlt := hbound (id, h0) (mem_of_lookupKV_eq_some _ _ _ hl)
      omega
    · exact hnc hm

/-- C5 (counterexample): the cache holds an unexpired entry for the
resolved key (`get` returns it), but its value `0` is falsy, so the
dispatcher's `if (cachedData)` check falls through and a transport call
is issued — contradicting the claim that an unexpired entry always
short-circuits. -/
theorem c5_cache_hit_counterexample :
    (CacheManager.get [("u", ⟨.vNum 0, 0, 1000⟩)] "u" 0).1 = some (.vNum 0) ∧
    transportEvents ((runGet (fun _ => none) "u"
      (some ⟨some ⟨some "u", none, false⟩, some "r", none⟩) ⟨true, true, true⟩ 0
      (.success (.vNum 9))
      { tokens := [], next := 0, cancelled := [], cache := [("u", ⟨.vNum 0, 0, 1000⟩)],
        isRedirecting := false, userStore := none, userRemovals := 0, clearAlls := 0,
        redirectsScheduled := 0 }).2.2) = [none] :=
  ⟨rfl, rfl⟩

/-- C5 (amended): for a read whose options request caching without
bypass and whose resolved cache key holds an unexpired entry with a
truthy value: no transport call is issued, the just-registered handle
is released without being cancelled, `onSuccess` fires synchronously
with the cached value followed by `onFinally`, and the cached value is
returned. -/
theorem c5_cache_hit (parse : String → Option Value) (url : String) (cfg : RequestOptions)
    (co : CacheOptions) (cb : CbFlags) (now : Nat) (outcome : Outcome) (st : SysState)
    (v : Value)
    (hc : cfg.cache = some co) (hb : co.bypass = false)
    (hhit : (CacheManager.get st.cache (resolveCacheKey url cfg.params co) now).1 = some v)
    (htr : v.truthy = true)
    (hcb1 : cb.hasSuccess = true) (hcb2 : cb.hasFinally = true)
    (hbound : ∀ p ∈ st.tokens, p.2 < st.next) (hnc : st.next ∉ st.cancelled) :
    (runGet parse url (some cfg) cb now outcome st).1 = .ok v ∧
    (runGet parse url (some cfg) cb now outcome st).2.2 = [Ev.success v, Ev.fin] ∧
    transportEvents ((runGet parse url (some cfg) cb now outcome st).2.2) = [] ∧
    lookupKV ((runGet parse url (some cfg) cb now outcome st).2.1).tokens
      (requestIdOf "get" url (some cfg) now) = none ∧
    st.next ∉ ((runGet parse url (some cfg) cb now outcome st).2.1).cancelled := by
  have hplan : cachePlanOf (some cfg) = some (co, cfg.params) := by
    simp [cachePlanOf, hc, hb]
  have hprobe : cacheProbeOf url (some cfg) now st = some v := by
    simp only [cacheProbeOf, hplan, probeCache, registerFresh_cache, cancelRequest_cache]
    exact hhit
  have hsettle : getSettled (cacheProbeOf url (some cfg) now st) outcome = .hit v := by
    rw [hprobe]
    simp [getSettled, htr]
  simp only [runGet_components, hsettle]
  refine ⟨rfl, ?_, ?_, ?_, ?_⟩
  · simp [traceOf, hcb1, hcb2]
  · simp [traceOf, transportEvents, hcb1, hcb2]
  · simp only [finalGetState, releaseToken_tokens]
    exact lookupKV_eraseKV_self _ _
  · simp only [finalGetState, releaseToken_cancelled, probeStateOf, probeCache_cancelled,
      registerFresh_cancelled]
    exact next_notin_cancelRequest st _ hbound hnc

/-- C5 witness: the amended theorem applied to a concrete cached truthy
value. -/
theorem c5_cache_hit_witness :
    (let st : SysState :=
      { tokens := [], next := 0, cancelled := [], cache := [("u", ⟨.vStr "x", 0, 1000⟩)],
        isRedirecting := false, userStore := none, userRemovals := 0, clearAlls := 0,
        redirectsScheduled := 0 }
     let cfg : RequestOptions := ⟨some ⟨some "u", none, false⟩, some "r", none⟩
     (runGet (fun _ => none) "u" (some cfg) ⟨true, true, true⟩ 0
        (.success (.vNum 9)) st).1 = .ok (.vStr "x") ∧
     (runGet (fun _ => none) "u" (some cfg) ⟨true, true, true⟩ 0
        (.success (.vNum 9)) st).2.2 = [Ev.success (.vStr "x"), Ev.fin] ∧
     transportEvents ((runGet (fun _ => none) "u" (some cfg) ⟨true, true, true⟩ 0
        (.success (.vNum 9)) st).2.2) = [] ∧
     lookupKV ((runGet (fun _ => none) "u" (some cfg) ⟨true, true, true⟩ 0
        (.success (.vNum 9)) st).2.1).tokens
        (requestIdOf "get" "u" (some cfg) 0) = none ∧
     (0 : Nat) ∉ ((runGet (fun _ => none) "u" (some cfg) ⟨true, true, true⟩ 0
        (.success (.vNum 9)) st).2.1).cancelled) :=
  c5_cache_hit (fun _ => none) "u" ⟨some ⟨some "u", none, false⟩, some "r", none⟩
    ⟨some "u", none, false⟩ ⟨true, true, true⟩ 0 (.success (.vNum 9)) _ (.vStr "x")
    rfl rfl rfl rfl rfl rfl (by intro p hp; simp at hp) (by simp)

/-! ### C7: normalization of non-cancellation failures -/

theorem getSettled_falsy (hv : Option Value) (outcome : Outcome)
    (h : ∀ v, hv = some v → v.truthy = false) :
    getSettled hv outcome = settleOutcome outcome := by
  cases hv with
  | none => rfl
  | some v => simp [getSettled, h v rfl]

/-- The server-provided `detail` field of a failure's response body. -/
def detailOf (e : RawError) : Option Value :=
  (e.response.map RawResponse.data).bind (fun d => d.getField "detail")

/-- C7: every dispatcher call failing with a non-cancellation error
invokes `onError` exactly once with the normalized `ApiError` and
throws that same `ApiError`, never the raw exception; the normalized
error carries the HTTP status and response body whenever a response
exists, and its message is the truthy `detail` field when present, else
the transport message, else a generic fallback string. -/
theorem c7_error_normalization :
    (∀ parse url config cb now e st,
      cb.hasError = true → e.isCancel = false →
      (∀ v, cacheProbeOf url config now st = some v → v.truthy = false) →
        errEvents ((runGet parse url config cb now (.failure e) st).2.2) =
          [handleError e] ∧
        (runGet parse url config cb now (.failure e) st).1 =
          .errThrown (handleError e)) ∧
    (∀ parse verb url config cb now e st,
      cb.hasError = true → e.isCancel = false →
        errEvents ((runWrite parse verb url config cb now (.failure e) st).2.2) =
          [handleError e] ∧
        (runWrite parse verb url config cb now (.failure e) st).1 =
          .errThrown (handleError e)) ∧
    (∀ e : RawError, e.isAxiosError = true →
        (handleError e).status = e.response.map RawResponse.status ∧
        (handleError e).data = e.response.map RawResponse.data) ∧
    (∀ e : RawError, e.isAxiosError = false →
        (handleError e).status = none ∧ (handleError e).data = none) ∧
    (∀ (e : RawError) (d : Value), e.isAxiosError = true → detailOf e = some d →
        d.truthy = true → (handleError e).message = d) ∧
    (∀ (e : RawError) (d : Value), e.isAxiosError = true → detailOf e = some d →
        d.truthy = false →
        (handleError e).message =
          (if e.message != "" then Value.vStr e.message
           else Value.vStr "An error occurred")) ∧
    (∀ e : RawError, e.isAxiosError = true → detailOf e = none →
        (handleError e).message =
          (if e.message != "" then Value.vStr e.message
           else Value.vStr "An error occurred")) ∧
    (∀ e : RawError, e.isAxiosError = false →
        (handleError e).message =
          (if e.message != "" then Value.vStr e.message
           else Value.vStr "An unknown error occurred")) := by
  refine ⟨?_, ?_, ?_, ?_, ?_, ?_, ?_, ?_⟩
  · intro parse url config cb now e st hcb hcancel hmiss
    have hso : settleOutcome (.failure e) = .err e := by
      simp [settleOutcome, hcancel]
    simp only [runGet_components, getSettled_falsy _ _ hmiss, hso]
    exact ⟨errEvents_traceOf_err cb e _ hcb, rfl⟩
  · intro parse verb url config cb now e st hcb hcancel
    have hso : settleOutcome (.failure e) = .err e := by
      simp [settleOutcome, hcancel]
    simp only [runWrite_components, hso]
    exact ⟨errEvents_traceOf_err cb e _ hcb, rfl⟩
  · intro e hax
    simp [handleError, hax]
  · intro e hax
    simp [handleError, hax]
  · intro e d hax hdet htr
    unfold detailOf at hdet
    simp [handleError, hax, hdet, htr]
  · intro e d hax hdet htr
    unfold detailOf at hdet
    simp [handleError, hax, hdet, htr]
  · intro e hax hdet
    unfold detailOf at hdet
    simp [handleError, hax, hdet]
  · intro e hax
    simp [handleError, hax]

/-- C7 witness: a concrete 500 failure with a truthy `detail` field in
the response body, through a non-cacheable read. -/
theorem c7_error_normalization_witness :
    (let e : RawError :=
      ⟨true, false, "Request failed", some ⟨500, .vObj [("detail", .vStr "bad input")]⟩⟩
     errEvents ((runGet (fun _ => none) "u" none ⟨true, true, true⟩ 0
        (.failure e)
        { tokens := [], next := 0, cancelled := [], cache := [], isRedirecting := false,
          userStore := none, userRemovals := 0, clearAlls := 0,
          redirectsScheduled := 0 }).2.2) = [handleError e] ∧
     (runGet (fun _ => none) "u" none ⟨true, true, true⟩ 0 (.failure e)
        { tokens := [], next := 0, cancelled := [], cache := [], isRedirecting := false,
          userStore := none, userRemovals := 0, clearAlls := 0,
          redirectsScheduled := 0 }).1 = .errThrown (handleError e) ∧
     (handleError e).message = .vStr "bad input" ∧
     (handleError e).status = some 500 ∧
     (handleError e).data = some (.vObj [("detail", .vStr "bad input")])) := by
  refine ⟨?_, ?_, ?_, ?_, ?_⟩
  · exact (c7_error_normalization.1 (fun _ => none) "u" none ⟨true, true, true⟩ 0
      _ _ rfl rfl (fun v hv => Option.noConfusion hv)).1
  · exact (c7_error_normalization.1 (fun _ => none) "u" none ⟨true, true, true⟩ 0
      _ _ rfl rfl (fun v hv => Option.noConfusion hv)).2
  · exact c7_error_normalization.2.2.2.2.1 _ (.vStr "bad input") rfl rfl rfl
  · exact (c7_error_normalization.2.2.1 _ rfl).1
  · exact (c7_error_normalization.2.2.1 _ rfl).2

/-! ### C8: cache entries are created only by a cacheable read success -/

theorem lookupKV_cacheGet_snd (c : Cache) (key : String) (now : Nat) (k : String) :
    lookupKV (CacheManager.get c key now).2 k = lookupKV c k ∨
    lookupKV (CacheManager.get c key now).2 k = none := by
  unfold CacheManager.get
  cases hl : lookupKV c key with
  | none => left; rfl
  | some entry =>
    by_cases hexp : entry.expiresAt < now
    · simp only [if_pos hexp]
      by_cases hk : k = key
      · subst hk
        right
        exact lookupKV_eraseKV_self c k
      · left
        exact lookupKV_eraseKV_ne c key k hk
    · left
      simp [hexp]

theorem lookupKV_probeStateOf_cache (url : String) (config : Option RequestOptions)
    (now : Nat) (st : SysState) (k : String) :
    lookupKV (probeStateOf url config now st).cache k = lookupKV st.cache k ∨
    lookupKV (probeStateOf url config now st).cache k = none := by
  unfold probeStateOf
  rcases hplan : cachePlanOf config with _ | ⟨co, ps⟩
  · left
    simp [probeCache]
  · simp only [probeCache]
    rw [show ((registerFresh
        (cancelRequest st (requestIdOf "get" url config now))
        (requestIdOf "get" url config now)).1).cache = st.cache by
      rw [registerFresh_cache, cancelRequest_cache]]
    exact lookupKV_cacheGet_snd st.cache (resolveCacheKey url ps co) now k

theorem getSettled_succ (hv : Option Value) (outcome : Outcome) (v : Value)
    (h : getSettled hv outcome = .succ v) : outcome = .success v := by
  have hso : ∀ o : Outcome, settleOutcome o = .succ v → o = .success v := by
    intro o ho
    cases o with
    | success w => simpa [settleOutcome] using congrArg (fun s => s) ho
    | failure e =>
      by_cases hc : e.isCancel <;> simp [settleOutcome, hc] at ho
  cases hv with
  | none => exact hso outcome h
  | some w =>
    by_cases ht : w.truthy
    · simp [getSettled, ht] at h
    · simp only [getSettled, ht, Bool.false_eq_true, if_false] at h
      exact hso outcome h

theorem finalWriteState_cache (requestId : String) (st2 : SysState) (s : Settled) :
    (finalWriteState requestId st2 s).cache = st2.cache := by
  cases s <;> simp [finalWriteState]

/-- C8: a cache entry is present after a read call at a key where the
pre-call cache had something different only if the call's transport
succeeded, its options requested caching without bypass, and the key is
the call's resolved cache key (every other change a call can make to
the cache is the lazy deletion of an expired entry); write verbs never
touch the cache at all. -/
theorem c8_cache_write_only_on_get_success :
    (∀ parse url config cb now outcome st k,
      lookupKV ((runGet parse url config cb now outcome st).2.1).cache k ≠
        lookupKV st.cache k →
        lookupKV ((runGet parse url config cb now outcome st).2.1).cache k = none ∨
        ((∃ v, outcome = .success v) ∧ cacheableOf config = true ∧
          k = resolvedKeyOf url config)) ∧
    (∀ parse verb url config cb now outcome st,
      ((runWrite parse verb url config cb now outcome st).2.1).cache = st.cache) := by
  constructor
  · intro parse url config cb now outcome st k hne
    simp only [runGet_components] at hne ⊢
    cases hS : getSettled (cacheProbeOf url config now st) outcome with
    | hit v =>
      rw [hS] at hne
      simp only [finalGetState, releaseToken_cache] at hne ⊢
      rcases lookupKV_probeStateOf_cache url config now st k with hh | hh
      · exact absurd hh hne
      · exact Or.inl hh
    | succ v =>
      rw [hS] at hne
      rcases hplan : cachePlanOf config with _ | ⟨co, ps⟩
      · simp only [finalGetState, hplan, releaseToken_cache] at hne ⊢
        rcases lookupKV_probeStateOf_cache url config now st k with hh | hh
        · exact absurd hh hne
        · exact Or.inl hh
      · simp only [finalGetState, hplan, releaseToken_cache] at hne ⊢
        by_cases hk : k = resolveCacheKey url ps co
        · refine Or.inr ⟨⟨v, getSettled_succ _ _ _ hS⟩, ?_, ?_⟩
          · simp [cacheableOf, hplan]
          · rw [hk]
            simp [resolvedKeyOf, hplan]
        · simp only [CacheManager.set] at hne ⊢
          rw [lookupKV_setKV_ne _ _ _ _ hk] at hne ⊢
          rcases lookupKV_probeStateOf_cache url config now st k with hh | hh
          · exact absurd hh hne
          · exact Or.inl hh
    | cancel e =>
      rw [hS] at hne
      simp only [finalGetState, applyResponseError_cache] at hne ⊢
      rcases lookupKV_probeStateOf_cache url config now st k with hh | hh
      · exact absurd hh hne
      · exact Or.inl hh
    | err e =>
      rw [hS] at hne
      simp only [finalGetState, applyResponseError_cache] at hne ⊢
      rcases lookupKV_probeStateOf_cache url config now st k with hh | hh
      · exact absurd hh hne
      · exact Or.inl hh
  · intro parse verb url config cb now outcome st
    simp only [runWrite_components, finalWriteState_cache, registerFresh_cache,
      cancelRequest_cache]

/-- C8 witness: a cacheable read success inserts exactly at the
resolved key; the inserted entry is observable. -/
theorem c8_cache_write_only_on_get_success_witness :
    (let st : SysState :=
      { tokens := [], next := 0, cancelled := [], cache := [], isRedirecting := false,
        userStore := none, userRemovals := 0, clearAlls := 0, redirectsScheduled := 0 }
     let cfg : RequestOptions := ⟨some ⟨some "key1", none, false⟩, some "r", none⟩
     lookupKV ((runGet (fun _ => none) "u" (some cfg) ⟨true, true, true⟩ 0
        (.success (.vNum 3)) st).2.1).cache "key1" ≠ lookupKV st.cache "key1" ∧
     (lookupKV ((runGet (fun _ => none) "u" (some cfg) ⟨true, true, true⟩ 0
        (.success (.vNum 3)) st).2.1).cache "key1" = none ∨
      ((∃ v, Outcome.success (.vNum 3) = Outcome.success v) ∧
        cacheableOf (some cfg) = true ∧ "key1" = resolvedKeyOf "u" (some cfg)))) := by
  refine ⟨?_, ?_⟩
  · intro h
    exact Option.noConfusion (h.symm.trans rfl)
  · exact c8_cache_write_only_on_get_success.1 (fun _ => none) "u" _ ⟨true, true, true⟩ 0
      (.success (.vNum 3)) _ "key1" (fun h => Option.noConfusion (h.symm.trans rfl))

/-! ### C9: Authorization header injection -/

/-- C9: every transport call a dispatcher operation issues carries the
Authorization value derived by the request interceptor from the stored
credential record; an absent record or a failed parse omits the header
(the call still proceeds), and a record with truthy `token` and
`tokenType` string fields yields `{tokenType} {token}`. -/
theorem c9_auth_injection :
    (∀ parse url config cb now outcome st a,
      Ev.transport a ∈ (runGet parse url config cb now outcome st).2.2 →
        a = authHeaderOf parse st.userStore) ∧
    (∀ parse verb url config cb now outcome st a,
      Ev.transport a ∈ (runWrite parse verb url config cb now outcome st).2.2 →
        a = authHeaderOf parse st.userStore) ∧
    (∀ parse : String → Option Value, authHeaderOf parse none = none) ∧
    (∀ (parse : String → Option Value) (raw : String), parse raw = none →
        authHeaderOf parse (some raw) = none) ∧
    (∀ (parse : String → Option Value) (raw : String) (u : Value) (tks tts : String),
        parse raw = some u → u.getField "token" = some (.vStr tks) →
        u.getField "tokenType" = some (.vStr tts) → tks ≠ "" → tts ≠ "" →
        authHeaderOf parse (some raw) = some (tts ++ " " ++ tks)) := by
  refine ⟨?_, ?_, fun _ => rfl, ?_, ?_⟩
  · intro parse url config cb now outcome st a hmem
    simp only [runGet_components] at hmem
    exact transport_mem_traceOf _ _ _ _ hmem
  · intro parse verb url config cb now outcome st a hmem
    simp only [runWrite_components] at hmem
    exact transport_mem_traceOf _ _ _ _ hmem
  · intro parse raw h
    simp [authHeaderOf, h]
  · intro parse raw u tks tts hp htk htt hk ht
    simp [authHeaderOf, hp, htk, htt, Value.truthy, Value.display, bne_iff_ne, hk, ht]

/-- C9 witness: a stored record parsing to truthy token fields puts
`Bearer T` on the issued transport call; a parse failure omits the
header. -/
theorem c9_auth_injection_witness :
    (Ev.transport (some "Bearer T") ∈
      (runGet (fun _ => some (.vObj [("token", .vStr "T"), ("tokenType", .vStr "Bearer")]))
        "u" none ⟨true, true, true⟩ 0 (.success (.vNum 1))
        { tokens := [], next := 0, cancelled := [], cache := [], isRedirecting := false,
          userStore := some "rec", userRemovals := 0, clearAlls := 0,
          redirectsScheduled := 0 }).2.2 ∧
     some "Bearer T" =
      authHeaderOf (fun _ => some (.vObj [("token", .vStr "T"), ("tokenType", .vStr "Bearer")]))
        (some "rec")) ∧
    ((fun _ : String => (none : Option Value)) "x" = none ∧
      authHeaderOf (fun _ => none) (some "x") = none) ∧
    authHeaderOf (fun _ => some (.vObj [("token", .vStr "T"), ("tokenType", .vStr "Bearer")]))
      (some "rec") = some ("Bearer" ++ " " ++ "T") := by
  refine ⟨⟨?_, ?_⟩, ⟨rfl, ?_⟩, ?_⟩
  · show Ev.transport (some "Bearer T") ∈
      [Ev.transport (some "Bearer T"), Ev.success (.vNum 1), Ev.fin]
    exact List.mem_cons_self _ _
  · exact c9_auth_injection.1
      (fun _ => some (.vObj [("token", .vStr "T"), ("tokenType", .vStr "Bearer")]))
      "u" none ⟨true, true, true⟩ 0 (.success (.vNum 1))
      { tokens := [], next := 0, cancelled := [], cache := [], isRedirecting := false,
        userStore := some "rec", userRemovals := 0, clearAlls := 0,
        redirectsScheduled := 0 } (some "Bearer T")
      (by
        show Ev.transport (some "Bearer T") ∈
          [Ev.transport (some "Bearer T"), Ev.success (.vNum 1), Ev.fin]
        exact List.mem_cons_self _ _)
  · exact c9_auth_injection.2.2.2.1 (fun _ => none) "x" rfl
  · exact c9_auth_injection.2.2.2.2 _ "rec" _ "T" "Bearer" rfl rfl rfl
      (by decide) (by decide)

end HttpBase
